import Mathlib

/-!
Verification of the control-channel client, background maintenance routines
and polling extractor of `google-images-cli`.

The definitions below are shallow embeddings of the Python source:
  * `CDPMessage`, `recvLoop`, `CDPClient.send`, `Channel` — `cdp_helpers.py`,
    class `CDPClient` (lines 37-60);
  * `actOn`, `execSched` — the same `CDPClient.send` body under cooperative
    interleaving of two concurrent callers;
  * `next_scroll_delay` — `cdp_helpers.py` lines 90-96;
  * `enforce_active_state`, `keep_tab_focused` — `cdp_helpers.py` lines 122-157;
  * `idle_watchdog` — `cdp_helpers.py` lines 160-185;
  * `pollLoop`, `hover_refinement`, `navigate_and_count` — `cli.py`,
    function `navigate_and_count` (lines 349-491);
  * `download_images`, `annotate_images` — `cli.py` lines 63-169.
Network, file and console side effects are represented by oracles and by
explicit logs; randomness and wall-clock time are represented by streams.
-/

/-- A JSON message on the DevTools channel, restricted to the fields the client
inspects: the optional integer `id` field and the optional string `method`
field.  `body` stands opaquely for the rest of the JSON object (`result`,
`error`, `params`, ...), so that distinct messages can be told apart. -/
structure CDPMessage where
  id : Option Nat
  method : Option String
  body : Nat
deriving DecidableEq, Repr

/-- Outcome of the receive loop inside `CDPClient.send` (lines 52-60 of
`cdp_helpers.py`).  `ok m` models the `return message` exit; `closedErr`
models `websocket.recv()` raising `ConnectionClosed` (the transport's
documented behaviour once the connection is closed and its buffer drained),
which `send` does not catch; `blocked` models the coroutine still suspended in
`await self.websocket.recv()` with nothing to receive. -/
inductive SendOutcome where
  | ok (m : CDPMessage)
  | closedErr
  | blocked
deriving DecidableEq, Repr

/-- The websocket channel as the client observes it: the messages still to be
received, and whether the connection has been closed. -/
structure Channel where
  inbound : List CDPMessage
  closed : Bool
deriving DecidableEq, Repr

/-- Closing the websocket (the teardown of `websockets.connect` in callers, or
an explicit `close()`): buffered inbound messages are still deliverable, after
which `recv` fails instead of suspending. -/
def Channel.close (ch : Channel) : Channel :=
  { ch with closed := true }

/-- The `while True` receive loop of `CDPClient.send`, lines 52-60 of
`cdp_helpers.py`, for one invocation whose id check compares against `msgId`:

    while True:
        raw = await self.websocket.recv()
        message = json.loads(raw)
        if "id" not in message and "method" in message:
            print(f"[event] {message['method']}")
            continue
        if message.get("id") == self._msg_id:
            return message

Returns the loop's outcome together with the list of event names printed by
the `[event]` branch.  Any message that is neither an event nor a match is
silently dropped by falling through to the next iteration. -/
def recvLoop (msgId : Nat) : List CDPMessage → Bool → SendOutcome × List String
  | [], closed => (if closed then .closedErr else .blocked, [])
  | m :: rest, closed =>
    if m.id.isNone && m.method.isSome then
      let r := recvLoop msgId rest closed
      (r.1, m.method.getD "" :: r.2)
    else if m.id = some msgId then (.ok m, [])
    else recvLoop msgId rest closed

/-- The client's only per-instance state: the `self._msg_id` counter. -/
structure CDPClient where
  msgId : Nat
deriving DecidableEq, Repr

/-- `CDPClient.send` (lines 42-60 of `cdp_helpers.py`) for a single caller:
increments `_msg_id`, writes the request `{id: _msg_id, method, params?}`
(the outbound bytes are not further inspected by any claim and are not
tracked), then runs the receive loop with the id check against the freshly
incremented counter. -/
def CDPClient.send (c : CDPClient) (method : String) (ch : Channel) :
    (SendOutcome × List String) × CDPClient :=
  let _ := method
  (recvLoop (c.msgId + 1) ch.inbound ch.closed, ⟨c.msgId + 1⟩)

/-- If the receive loop returns a message, that message's `id` field equals
the id the loop was matching against. -/
theorem recvLoop_ok_id (msgId : Nat) :
    ∀ (l : List CDPMessage) (closed : Bool) (m : CDPMessage),
      (recvLoop msgId l closed).1 = .ok m → m.id = some msgId := by
  intro l
  induction l with
  | nil =>
    intro closed m h
    cases closed <;> simp [recvLoop] at h
  | cons x rest ih =>
    intro closed m h
    by_cases hev : (x.id.isNone && x.method.isSome) = true
    · exact ih closed m (by simpa [recvLoop, hev] using h)
    · by_cases hid : x.id = some msgId
      · have hxm : x = m := by simpa [recvLoop, hev, hid] using h
        rw [← hxm]; exact hid
      · exact ih closed m (by simpa [recvLoop, hev, hid] using h)

/-- On a closed channel the receive loop never stays suspended: it either
returns a buffered message or fails with the connection-closed error. -/
theorem recvLoop_closed_not_blocked (msgId : Nat) :
    ∀ l : List CDPMessage, (recvLoop msgId l true).1 ≠ .blocked := by
  intro l
  induction l with
  | nil => simp [recvLoop]
  | cons x rest ih =>
    by_cases hev : (x.id.isNone && x.method.isSome) = true
    · simpa [recvLoop, hev] using ih
    · by_cases hid : x.id = some msgId
      · simp [recvLoop, hev, hid]
      · simpa [recvLoop, hev, hid] using ih

/-- On a closed channel whose buffer holds no message with the awaited id, the
receive loop fails with the connection-closed error. -/
theorem recvLoop_closed_no_match (msgId : Nat) :
    ∀ l : List CDPMessage, (∀ m ∈ l, m.id ≠ some msgId) →
      (recvLoop msgId l true).1 = .closedErr := by
  intro l
  induction l with
  | nil => simp [recvLoop]
  | cons x rest ih =>
    intro hno
    have hx : x.id ≠ some msgId := hno x (by simp)
    by_cases hev : (x.id.isNone && x.method.isSome) = true
    · simpa [recvLoop, hev] using ih fun m hm => hno m (by simp [hm])
    · simpa [recvLoop, hev, hx] using ih fun m hm => hno m (by simp [hm])

/-- The phase of one caller of `CDPClient.send` under cooperative scheduling:
not yet entered (`ready`, carrying the method it will send), suspended in the
receive loop (`waiting`, carrying as ghost data the id this invocation
allocated at its `self._msg_id += 1`), or returned (`done`, carrying the ghost
allocated id and the message actually returned). -/
inductive Phase where
  | ready (method : String)
  | waiting (alloc : Nat)
  | done (alloc : Nat) (resp : CDPMessage)
deriving DecidableEq, Repr

/-- Shared state of one `CDPClient` with two concurrent callers `a` and `b`:
the shared `self._msg_id` counter, the shared inbound message stream, and each
caller's phase. -/
structure ConcState where
  msgId : Nat
  inbound : List CDPMessage
  a : Phase
  b : Phase
deriving DecidableEq, Repr

/-- One resumption of one caller executing the body of `CDPClient.send`
(lines 42-60 of `cdp_helpers.py`).  A `ready` caller performs the send prefix:
`self._msg_id += 1` and the websocket write (suspension point).  A `waiting`
caller resumes from `await self.websocket.recv()` with the next shared inbound
message and runs one loop iteration; crucially the match test is
`message.get("id") == self._msg_id` against the CURRENT shared counter, not
against the id this invocation allocated.  Returns the updated counter,
inbound stream, and phase. -/
def actOn (msgId : Nat) (inbound : List CDPMessage) (ph : Phase) :
    Nat × List CDPMessage × Phase :=
  match ph with
  | .ready _ => (msgId + 1, inbound, .waiting (msgId + 1))
  | .waiting alloc =>
    match inbound with
    | [] => (msgId, [], .waiting alloc)
    | msg :: rest =>
      if msg.id.isNone && msg.method.isSome then (msgId, rest, .waiting alloc)
      else if msg.id = some msgId then (msgId, rest, .done alloc msg)
      else (msgId, rest, .waiting alloc)
  | .done alc r => (msgId, inbound, .done alc r)

/-- Run the two callers under an explicit cooperative schedule: `true` resumes
caller `a`, `false` resumes caller `b`. -/
def execSched : ConcState → List Bool → ConcState
  | s, [] => s
  | s, pick :: sched =>
    if pick then
      match actOn s.msgId s.inbound s.a with
      | (mi, inb, ph) => execSched ⟨mi, inb, ph, s.b⟩ sched
    else
      match actOn s.msgId s.inbound s.b with
      | (mi, inb, ph) => execSched ⟨mi, inb, s.a, ph⟩ sched

/-- The response message answering caller a's request (id 1). -/
def respA : CDPMessage := ⟨some 1, none, 11⟩

/-- The response message answering caller b's request (id 2). -/
def respB : CDPMessage := ⟨some 2, none, 22⟩

/-- Initial state: fresh client (`_msg_id = 0`), both callers about to invoke
`send`, and the channel will deliver the two responses in request order. -/
def concInit : ConcState :=
  ⟨0, [respA, respB], .ready "Runtime.enable", .ready "Page.enable"⟩

/-- C1 counterexample.  With two concurrent callers the id check of
`CDPClient.send` compares against the shared, current `self._msg_id`, so a
caller can be handed another caller's response.  Schedule: a sends
(allocates id 1), b sends (allocates id 2, bumping the shared counter), a
receives the id-1 response and DISCARDS it (1 ≠ current counter 2), a then
receives the id-2 response and RETURNS it.  Caller a's invocation allocated
id 1 but returns the message with id 2 — caller b's response — while b is
left waiting on an empty stream. -/
theorem concurrent_send_misdelivers :
    execSched concInit [true, false, true, true] = ⟨2, [], .done 1 respB, .waiting 2⟩ ∧
    respB.id = some 2 ∧ (2 : Nat) ≠ 1 ∧ respA.id = some 1 := by
  refine ⟨rfl, rfl, by decide, rfl⟩

/-- C1 (amended): in sequential use — a single call outstanding — `send`
returns exactly the message whose `id` equals the id this invocation
allocated (`_msg_id + 1`), skipping interleaved events and any message with a
different id; the counter advances by one. -/
theorem send_returns_allocated_id (c : CDPClient) (method : String) (ch : Channel)
    (m : CDPMessage) (hm : ((c.send method ch).1).1 = .ok m) :
    m.id = some (c.msgId + 1) ∧ ((c.send method ch).2).msgId = c.msgId + 1 :=
  ⟨recvLoop_ok_id (c.msgId + 1) ch.inbound ch.closed m hm, rfl⟩

/-- Witness for `send_returns_allocated_id`: a fresh client calls once while
the channel delivers an event, a stale id-5 message, and then the id-1
response; the call returns the id-1 response. -/
theorem send_returns_allocated_id_witness :
    (((CDPClient.mk 0).send "Runtime.enable"
        ⟨[⟨none, some "Page.frameNavigated", 0⟩, ⟨some 5, none, 3⟩, ⟨some 1, none, 7⟩],
          false⟩).1).1 = .ok ⟨some 1, none, 7⟩ ∧
    (⟨some 1, none, 7⟩ : CDPMessage).id = some (0 + 1) := by
  refine ⟨by decide, ?_⟩
  exact (send_returns_allocated_id ⟨0⟩ "Runtime.enable"
    ⟨[⟨none, some "Page.frameNavigated", 0⟩, ⟨some 5, none, 3⟩, ⟨some 1, none, 7⟩], false⟩
    ⟨some 1, none, 7⟩ (by decide)).1

/-- C2: closing the channel fails every pending caller.  Consider any set of
pending invocations (their allocated ids listed in `pending`, each suspended
in the receive loop of `CDPClient.send`) and any channel `ch`; after
`ch.close`, (1) no pending caller ever remains suspended — the receive loop
cannot be `blocked`; and (2) if the still-buffered inbound messages answer
none of the pending ids (the teardown situation), every pending caller's
`send` fails with the connection-closed error, which `send` does not catch
and therefore raises to its caller. -/
theorem close_fails_all_pending (pending : List Nat) (ch : Channel)
    (hno : ∀ i ∈ pending, ∀ m ∈ ch.inbound, m.id ≠ some i) :
    (∀ i, (recvLoop i ch.close.inbound ch.close.closed).1 ≠ .blocked) ∧
    (∀ i ∈ pending, (recvLoop i ch.close.inbound ch.close.closed).1 = .closedErr) := by
  constructor
  · intro i
    exact recvLoop_closed_not_blocked i ch.inbound
  · intro i hi
    exact recvLoop_closed_no_match i ch.inbound (hno i hi)

/-- Witness for `close_fails_all_pending`: three callers with ids 1, 2, 3 are
pending; the channel still buffers one event and is then closed; all three
fail with the connection-closed error. -/
theorem close_fails_all_pending_witness :
    (recvLoop 1 (Channel.close ⟨[⟨none, some "Page.loadEventFired", 0⟩], false⟩).inbound
        (Channel.close ⟨[⟨none, some "Page.loadEventFired", 0⟩], false⟩).closed).1 = .closedErr := by
  exact (close_fails_all_pending [1, 2, 3] ⟨[⟨none, some "Page.loadEventFired", 0⟩], false⟩
    (by decide)).2 1 (by decide)

/-- C10 (amended): in sequential use — a single call outstanding, so the id
the receive loop matches on IS the id the invocation allocated — any inbound
message whose `id` is present but different from that id, and any inbound
message with neither an `id` nor a `method` field, is silently discarded by
the receive loop of `CDPClient.send`: the loop's outcome and its event log
are exactly those of the remaining stream — the message is not returned, not
logged, and not retained.  (With concurrent callers the match is against the
shared current counter and such a message CAN be returned, as the concurrent
two-caller scenarios in this file show.) -/
theorem discarded_messages_dropped (msgId : Nat) (m : CDPMessage)
    (rest : List CDPMessage) (closed : Bool)
    (h : (∃ j, m.id = some j ∧ j ≠ msgId) ∨ (m.id = none ∧ m.method = none)) :
    recvLoop msgId (m :: rest) closed = recvLoop msgId rest closed := by
  rcases h with ⟨j, hj, hne⟩ | ⟨hid, hmeth⟩
  · have hev : (m.id.isNone && m.method.isSome) = false := by simp [hj]
    have hne2 : ¬m.id = some msgId := by simp [hj, hne]
    simp [recvLoop, hev, hne2]
  · have hev : (m.id.isNone && m.method.isSome) = false := by simp [hmeth]
    have hne2 : ¬m.id = some msgId := by simp [hid]
    simp [recvLoop, hev, hne2]

/-- Witness for `discarded_messages_dropped`: while waiting for id 1, a stale
id-5 message and a message with neither id nor method are both dropped, after
which the id-1 response is returned with an empty event log either way. -/
theorem discarded_messages_dropped_witness :
    recvLoop 1 [⟨some 5, none, 0⟩, ⟨some 1, none, 7⟩] false =
      recvLoop 1 [⟨some 1, none, 7⟩] false ∧
    recvLoop 1 [⟨none, none, 4⟩, ⟨some 1, none, 7⟩] false = (.ok ⟨some 1, none, 7⟩, []) := by
  constructor
  · exact discarded_messages_dropped 1 ⟨some 5, none, 0⟩ [⟨some 1, none, 7⟩] false
      (Or.inl ⟨5, rfl, by decide⟩)
  · rw [discarded_messages_dropped 1 ⟨none, none, 4⟩ [⟨some 1, none, 7⟩] false
      (Or.inr ⟨rfl, rfl⟩)]
    decide

/-- The value returned by one `Runtime.evaluate` of the extraction script
(`build_script` in `cli.py`), restricted to the fields `navigate_and_count`
inspects afterwards: the `status` tag, whether `data.imgres` is a non-null
object (this decides `success = bool(data.get("imgres"))`), the
`data.imgres.imgurl` string (consumed later by `download_images`), whether the
combined `hoverRect or rect` has truthy `width` and `height` (the hover gate),
the `data.docId` string, and an opaque stand-in `raw` for the rest of the
payload (`outerHTML`, remaining `data` fields, coordinates, ...). -/
structure Payload where
  status : Option String
  imgres : Bool
  imgurl : Option String
  hasRect : Bool
  docId : Option String
  raw : Nat
deriving DecidableEq, Repr

/-- Python truthiness of the optional `status` string (`if status:`). -/
def truthy : Option String → Bool
  | none => false
  | some s => s ≠ ""

/-- Outcome of the bounded polling loop for one index (`cli.py` lines
355-377): `found p` is the `status == "ok"` break with payload `p`;
`outOfRange` is the `status == "out_of_range"` early return of the whole run;
`timedOut` is the deadline expiring without `ok` (`raise SystemExit`). -/
inductive PollOutcome where
  | found (p : Payload)
  | outOfRange
  | timedOut
deriving DecidableEq, Repr

/-- The `while loop.time() < deadline` polling loop of `navigate_and_count`
(`cli.py` lines 355-374) for one index.  Each list element is one poll's
evaluated `value` (`none` models a falsy or missing value); exhausting the
list models the 20-second deadline expiring.  `seen` is `seen_status`, used
only to log a waiting status once per transition (the log itself is not
observable to any claim and is not recorded). -/
def pollLoop : List (Option Payload) → Option String → PollOutcome
  | [], _ => .timedOut
  | none :: rest, seen => pollLoop rest seen
  | some p :: rest, seen =>
    if p.status = some "ok" then .found p
    else if p.status = some "out_of_range" then .outOfRange
    else pollLoop rest (if truthy p.status && p.status ≠ seen then p.status else seen)

/-- How the hover-refinement block for one index plays out: `fails` — some
command inside the `try` (the `Page.bringToFront`, one of the three
`Input.dispatchMouseEvent` calls, the hover-event script, or the re-read
`Runtime.evaluate` itself) raises; `reread v` — every command succeeds and
the single re-read returns value `v`. -/
inductive HoverTrace where
  | fails
  | reread (v : Option Payload)
deriving DecidableEq, Repr

/-- The hover-refinement step of `navigate_and_count` (`cli.py` lines
382-443) applied to the pre-hover `ok` payload `p`.  It runs only when the
geometric gate `if rect and rect.get("width") and rect.get("height")` holds;
an exception anywhere in the `try` is caught and logged (`result` keeps its
pre-hover value); on a successful re-read, the new value supersedes `p`
exactly when it is truthy with `status == "ok"`. -/
def hover_refinement (p : Payload) (h : HoverTrace) : Payload :=
  if p.hasRect then
    match h with
    | .fails => p
    | .reread v =>
      match v with
      | some q => if q.status = some "ok" then q else p
      | none => p
  else p

/-- One entry of the `results` list (`cli.py` lines 477-487): the fields set
by the extractor at creation, plus the keys that `download_images` and
`annotate_images` later assign into the same dict (absent at creation,
modelled as `none`). -/
structure Record where
  index : Nat
  success : Bool
  payload : Payload
  downloaded : Option Bool
  download_error : Option String
  filename : Option String
  llm_alt : Option String
  llm_alt_error : Option String
deriving DecidableEq, Repr

/-- The record `navigate_and_count` appends for index `idx` with final
payload `p`: `success = bool(data.get("imgres"))`; the downstream keys are
not present yet. -/
def mkRecord (idx : Nat) (p : Payload) : Record :=
  ⟨idx, p.imgres, p, none, none, none, none, none⟩

/-- How `navigate_and_count` ends: `finished overall records` — the normal
return after all requested indices (line 491), results flushed; `early
overall records` — the `out_of_range` early return (lines 366-370), results
flushed; `fatal records` — `raise SystemExit` on a poll deadline (line 377),
nothing flushed.  `overall` is the boolean actually returned to `main`. -/
inductive RunResult where
  | finished (overall : Bool) (records : List Record)
  | early (overall : Bool) (records : List Record)
  | fatal (records : List Record)
deriving DecidableEq, Repr

/-- The records accumulated when the run ended. -/
def RunResult.records : RunResult → List Record
  | .finished _ recs => recs
  | .early _ recs => recs
  | .fatal recs => recs

/-- Whether `write_results_json(results, json_path)` was invoked on the way
out (it is on both return paths, but not on the `SystemExit` path). -/
def RunResult.flushed : RunResult → Bool
  | .finished _ _ => true
  | .early _ _ => true
  | .fatal _ => false

/-- Everything the channel feeds the extractor for one index: the evaluated
poll values available before the deadline, and the hover-refinement trace
used if a poll reports `ok`. -/
structure IndexTrace where
  polls : List (Option Payload)
  hover : HoverTrace

/-- The `for idx in range(count)` loop of `navigate_and_count` (`cli.py`
lines 349-491) from index `idx` with `rem` indices remaining and `acc` the
records appended so far.  Per index: poll until `ok`, `out_of_range` or the
deadline; on `ok` run hover refinement and append the record built from the
final payload; on `out_of_range` flush and return
`all(entry.get("success") ...) if results else False`; on deadline raise.
After the loop, flush and return `all(entry.get("success") ...)`, which is
vacuously `True` on an empty list. -/
def runFrom (oracle : Nat → IndexTrace) : Nat → Nat → List Record → RunResult
  | _, 0, acc => .finished (acc.all fun r => r.success) acc
  | idx, rem + 1, acc =>
    match pollLoop (oracle idx).polls none with
    | .timedOut => .fatal acc
    | .outOfRange => .early (if acc.isEmpty then false else acc.all fun r => r.success) acc
    | .found p =>
      runFrom oracle (idx + 1) rem
        (acc ++ [mkRecord idx (hover_refinement p (oracle idx).hover)])

/-- The extraction core of `navigate_and_count` over `count` requested
indices, the channel abstracted by the per-index oracle. -/
def navigate_and_count (count : Nat) (oracle : Nat → IndexTrace) : RunResult :=
  runFrom oracle 0 count []

/-- Records are appended, never removed or reordered: the run's records
extend `acc` with new records whose indices are exactly `idx, idx+1, ...`. -/
theorem runFrom_records (oracle : Nat → IndexTrace) :
    ∀ (rem idx : Nat) (acc : List Record), ∃ recs2,
      (runFrom oracle idx rem acc).records = acc ++ recs2 ∧
      recs2.map (fun r => r.index) = List.range' idx recs2.length := by
  intro rem
  induction rem with
  | zero =>
    intro idx acc
    exact ⟨[], by simp [runFrom, RunResult.records], by simp [List.range']⟩
  | succ n ih =>
    intro idx acc
    cases hp : pollLoop (oracle idx).polls none with
    | timedOut => exact ⟨[], by simp [runFrom, hp, RunResult.records], by simp [List.range']⟩
    | outOfRange => exact ⟨[], by simp [runFrom, hp, RunResult.records], by simp [List.range']⟩
    | found p =>
      obtain ⟨recs2, h1, h2⟩ :=
        ih (idx + 1) (acc ++ [mkRecord idx (hover_refinement p (oracle idx).hover)])
      refine ⟨mkRecord idx (hover_refinement p (oracle idx).hover) :: recs2, ?_, ?_⟩
      · simp only [runFrom, hp, h1, List.append_assoc, List.singleton_append]
      · simp [List.range', h2, mkRecord]

/-- On the normal-completion return path the returned boolean is the
conjunction of the appended records' `success` flags. -/
theorem runFrom_finished_overall (oracle : Nat → IndexTrace) :
    ∀ (rem idx : Nat) (acc : List Record) (ov : Bool) (recs : List Record),
      runFrom oracle idx rem acc = .finished ov recs → ov = recs.all fun r => r.success := by
  intro rem
  induction rem with
  | zero =>
    intro idx acc ov recs h
    simp only [runFrom, RunResult.finished.injEq] at h
    rw [← h.2, ← h.1]
  | succ n ih =>
    intro idx acc ov recs h
    cases hp : pollLoop (oracle idx).polls none with
    | timedOut => simp [runFrom, hp] at h
    | outOfRange => simp [runFrom, hp] at h
    | found p =>
      simp only [runFrom, hp] at h
      exact ih (idx + 1) _ ov recs h

/-- On the `out_of_range` early-return path the returned boolean is the
conjunction of the appended records' `success` flags when at least one record
was appended, and `False` when none were. -/
theorem runFrom_early_overall (oracle : Nat → IndexTrace) :
    ∀ (rem idx : Nat) (acc : List Record) (ov : Bool) (recs : List Record),
      runFrom oracle idx rem acc = .early ov recs →
      ov = if recs.isEmpty then false else recs.all fun r => r.success := by
  intro rem
  induction rem with
  | zero =>
    intro idx acc ov recs h
    simp [runFrom] at h
  | succ n ih =>
    intro idx acc ov recs h
    cases hp : pollLoop (oracle idx).polls none with
    | timedOut => simp [runFrom, hp] at h
    | outOfRange =>
      simp only [runFrom, hp, RunResult.early.injEq] at h
      rw [← h.2, ← h.1]
    | found p =>
      simp only [runFrom, hp] at h
      exact ih (idx + 1) _ ov recs h

/-- A payload whose status is `out_of_range`, as the extraction script
returns it when the requested index exceeds the available items. -/
def oorPayload : Payload := ⟨some "out_of_range", false, none, false, none, 1⟩

/-- A payload whose status is `ok`, with an `imgres` link and a degenerate
bounding rect (so hover refinement is skipped). -/
def okPayload : Payload := ⟨some "ok", true, some "http://example.com/a.jpg", false, none, 0⟩

/-- An oracle whose every index immediately reports `out_of_range`. -/
def oorOracle : Nat → IndexTrace := fun _ => ⟨[some oorPayload], .fails⟩

/-- An oracle whose every index immediately reports `ok` with `okPayload`. -/
def okOracle : Nat → IndexTrace := fun _ => ⟨[some okPayload], .fails⟩

/-- C8 counterexample.  When the very first requested index reports
`out_of_range`, the run returns overall success `false` with an empty record
list (`all(...) if results else False`, `cli.py` line 368), whereas the
logical AND over an empty collection of success flags is `true`. -/
theorem empty_early_overall_false :
    navigate_and_count 1 oorOracle = .early false [] ∧
    (([] : List Record).all fun r => r.success) = true ∧ false ≠ true := by
  refine ⟨by decide, rfl, by decide⟩

/-- C8 (amended): in every run, records are appended in strictly increasing
index order (their indices are exactly `0, 1, ...` in order); on normal
completion the returned overall success is the AND of the appended records'
`success` flags (vacuously `true` when no index was requested); on the
`out_of_range` early return it is that same AND when at least one record was
appended, and `false` when none were. -/
theorem run_order_and_overall (count : Nat) (oracle : Nat → IndexTrace) :
    ((navigate_and_count count oracle).records.map fun r => r.index) =
      List.range (navigate_and_count count oracle).records.length ∧
    (∀ ov recs, navigate_and_count count oracle = .finished ov recs →
      ov = recs.all fun r => r.success) ∧
    (∀ ov recs, navigate_and_count count oracle = .early ov recs →
      ov = if recs.isEmpty then false else recs.all fun r => r.success) := by
  refine ⟨?_, ?_, ?_⟩
  · obtain ⟨recs2, h1, h2⟩ := runFrom_records oracle count 0 []
    unfold navigate_and_count
    rw [h1]
    simp only [List.nil_append] at h1 ⊢
    rw [h2, List.range_eq_range']
  · intro ov recs h
    exact runFrom_finished_overall oracle count 0 [] ov recs h
  · intro ov recs h
    exact runFrom_early_overall oracle count 0 [] ov recs h

/-- Witness for `run_order_and_overall`: a one-index run that finds an `ok`
payload with an `imgres` link returns overall success `true`, the AND of its
single record's `success`. -/
theorem run_order_and_overall_witness :
    navigate_and_count 1 okOracle = .finished true [mkRecord 0 okPayload] ∧
    true = ([mkRecord 0 okPayload].all fun r => r.success) := by
  refine ⟨by decide, ?_⟩
  exact (run_order_and_overall 1 okOracle).2.1 true [mkRecord 0 okPayload] (by decide)

/-- If every index from `idx` up to (but not including) `i` polls to `ok` and
index `i` polls to `out_of_range`, the loop starting at `idx` takes the
early-return path, appending exactly the records for `idx, ..., i-1`. -/
theorem runFrom_oor (oracle : Nat → IndexTrace) (i : Nat)
    (hoor : pollLoop (oracle i).polls none = .outOfRange) :
    ∀ (rem idx : Nat) (acc : List Record), idx ≤ i → i < idx + rem →
      (∀ j, idx ≤ j → j < i → ∃ p, pollLoop (oracle j).polls none = .found p) →
      ∃ recs2, runFrom oracle idx rem acc =
          .early (if (acc ++ recs2).isEmpty then false
                  else (acc ++ recs2).all fun r => r.success) (acc ++ recs2) ∧
        recs2.map (fun r => r.index) = List.range' idx (i - idx) := by
  intro rem
  induction rem with
  | zero =>
    intro idx acc h1 h2 _
    omega
  | succ n ih =>
    intro idx acc h1 h2 hfound
    rcases Nat.eq_or_lt_of_le h1 with heq | hlt
    · subst heq
      refine ⟨[], ?_, by simp [List.range']⟩
      simp [runFrom, hoor]
    · obtain ⟨p, hp⟩ := hfound idx (Nat.le_refl idx) hlt
      obtain ⟨recs2, hrun, hmap⟩ :=
        ih (idx + 1) (acc ++ [mkRecord idx (hover_refinement p (oracle idx).hover)])
          hlt (by omega) (fun j hj1 hj2 => hfound j (by omega) hj2)
      refine ⟨mkRecord idx (hover_refinement p (oracle idx).hover) :: recs2, ?_, ?_⟩
      · simp only [runFrom, hp, List.append_assoc, List.singleton_append] at hrun ⊢
        exact hrun
      · have hsub : i - idx = (i - (idx + 1)) + 1 := by omega
        rw [hsub]
        simp [List.range', hmap, mkRecord]

/-- Under the same hypotheses, the run's outcome only depends on the oracle
at indices up to and including `i`: no later index is ever polled. -/
theorem runFrom_congr (oracle oracle2 : Nat → IndexTrace) (i : Nat)
    (hoor : pollLoop (oracle i).polls none = .outOfRange)
    (hagree : ∀ j, j ≤ i → oracle2 j = oracle j) :
    ∀ (rem idx : Nat) (acc : List Record), idx ≤ i → i < idx + rem →
      (∀ j, idx ≤ j → j < i → ∃ p, pollLoop (oracle j).polls none = .found p) →
      runFrom oracle2 idx rem acc = runFrom oracle idx rem acc := by
  intro rem
  induction rem with
  | zero =>
    intro idx acc h1 h2 _
    omega
  | succ n ih =>
    intro idx acc h1 h2 hfound
    have hidx : oracle2 idx = oracle idx := hagree idx h1
    rcases Nat.eq_or_lt_of_le h1 with heq | hlt
    · subst heq
      simp [runFrom, hoor, hidx]
    · obtain ⟨p, hp⟩ := hfound idx (Nat.le_refl idx) hlt
      simp only [runFrom, hidx, hp]
      exact ih (idx + 1) _ hlt (by omega) (fun j hj1 hj2 => hfound j (by omega) hj2)

/-- C3: if every index before `i` polls to `ok` and index `i` is classified
`out_of_range`, the run terminates immediately on the early-return path:
the appended records are exactly those for indices `0, ..., i-1` (none for
`i` or later), the records are flushed (`write_results_json` is invoked on
this path), and no index beyond `i` is polled — the outcome is unchanged
under any oracle agreeing up to `i`. -/
theorem out_of_range_aborts_run (count i : Nat) (oracle : Nat → IndexTrace)
    (hi : i < count)
    (hok : ∀ j, j < i → ∃ p, pollLoop (oracle j).polls none = .found p)
    (hoor : pollLoop (oracle i).polls none = .outOfRange) :
    ∃ ov recs, navigate_and_count count oracle = .early ov recs ∧
      (recs.map fun r => r.index) = List.range i ∧
      (navigate_and_count count oracle).flushed = true ∧
      ∀ oracle2, (∀ j, j ≤ i → oracle2 j = oracle j) →
        navigate_and_count count oracle2 = navigate_and_count count oracle := by
  obtain ⟨recs2, hrun, hmap⟩ := runFrom_oor oracle i hoor count 0 []
    (Nat.zero_le i) (by omega) (fun j _ hj2 => hok j hj2)
  simp only [List.nil_append] at hrun
  refine ⟨if recs2.isEmpty then false else recs2.all fun r => r.success, recs2, ?_, ?_, ?_, ?_⟩
  · exact hrun
  · rw [hmap, Nat.sub_zero, List.range_eq_range']
  · unfold navigate_and_count
    rw [hrun]
    rfl
  · intro oracle2 hagree
    unfold navigate_and_count
    exact runFrom_congr oracle oracle2 i hoor hagree count 0 []
      (Nat.zero_le i) (by omega) (fun j _ hj2 => hok j hj2)

/-- A two-index oracle: index 0 reports `ok`, every later index reports
`out_of_range` — the spec's end-to-end early-termination scenario. -/
def c3Oracle : Nat → IndexTrace :=
  fun j => if j = 0 then ⟨[some okPayload], .fails⟩ else ⟨[some oorPayload], .fails⟩

/-- Witness for `out_of_range_aborts_run`: requesting indices 0 and 1 where
index 1 polls to `out_of_range` yields an early return whose records are
exactly the single index-0 record. -/
theorem out_of_range_aborts_run_witness :
    ∃ ov recs, navigate_and_count 2 c3Oracle = .early ov recs ∧
      (recs.map fun r => r.index) = List.range 1 := by
  obtain ⟨ov, recs, h1, h2, _, _⟩ := out_of_range_aborts_run 2 1 c3Oracle (by decide)
    (fun j hj => ⟨okPayload, by
      have hj0 : j = 0 := by omega
      subst hj0
      decide⟩)
    (by decide)
  exact ⟨ov, recs, h1, h2⟩

/-- C4: hover refinement never fails an index whose initial poll returned an
`ok` payload `p`.  If any command inside the hover `try` block raises, the
appended record's payload is the original pre-hover payload `p`; if every
command succeeds and the single re-read after the settle delay returns an
`ok` payload `q`, the appended record's payload is `q` (the re-read
supersedes the original). -/
theorem hover_refinement_never_fails_index (p : Payload) (_hp : p.status = some "ok") :
    (∀ idx, (mkRecord idx (hover_refinement p .fails)).payload = p) ∧
    (∀ idx q, p.hasRect = true → q.status = some "ok" →
      (mkRecord idx (hover_refinement p (.reread (some q)))).payload = q) := by
  constructor
  · intro idx
    unfold hover_refinement mkRecord
    split <;> rfl
  · intro idx q hr hq
    simp [hover_refinement, mkRecord, hr, hq]

/-- An `ok` payload with a non-degenerate bounding rect, so the hover block
runs for it. -/
def okRectPayload : Payload := ⟨some "ok", true, some "http://example.com/b.jpg", true, some "d1", 2⟩

/-- A second `ok` payload, the re-read result. -/
def rereadPayload : Payload := ⟨some "ok", false, none, true, some "d1", 3⟩

/-- Witness for `hover_refinement_never_fails_index`: with a hoverable `ok`
payload, a raising hover keeps the original payload and a successful `ok`
re-read supersedes it. -/
theorem hover_refinement_never_fails_index_witness :
    (mkRecord 0 (hover_refinement okRectPayload .fails)).payload = okRectPayload ∧
    (mkRecord 0 (hover_refinement okRectPayload (.reread (some rereadPayload)))).payload =
      rereadPayload := by
  constructor
  · exact (hover_refinement_never_fails_index okRectPayload rfl).1 0
  · exact (hover_refinement_never_fails_index okRectPayload rfl).2 0 rereadPayload rfl rfl

/-- The DevTools commands issued by the focus-keeper routine. -/
inductive Cmd where
  | activateTarget
  | bringToFront
  | setFocusEmulationEnabled
  | setWebLifecycleState
  | setIdleOverride
deriving DecidableEq, Repr

/-- Environment for `keep_tab_focused`: `ok n` tells whether the `n`-th
command the routine issues (counting every `send` across all iterations)
succeeds or raises, and `stop k` is `stop_event.is_set()` at the top of
iteration `k`. -/
structure FocusEnv where
  ok : Nat → Bool
  stop : Nat → Bool

/-- `enforce_active_state` (`cdp_helpers.py` lines 122-135) with its command
counter at `n`: issues `Emulation.setFocusEmulationEnabled`,
`Page.setWebLifecycleState` and `Emulation.setIdleOverride` in order inside
its own `try`; the first raising command is caught, logged, and makes the
function return `False` without issuing the remaining sub-commands; if all
succeed it returns `True`.  Result: (returned boolean, next command counter,
commands issued). -/
def enforce_active_state (env : FocusEnv) (n : Nat) : Bool × Nat × List Cmd :=
  if env.ok n = false then (false, n + 1, [.setFocusEmulationEnabled])
  else if env.ok (n + 1) = false then
    (false, n + 2, [.setFocusEmulationEnabled, .setWebLifecycleState])
  else if env.ok (n + 2) = false then
    (false, n + 3, [.setFocusEmulationEnabled, .setWebLifecycleState, .setIdleOverride])
  else (true, n + 3, [.setFocusEmulationEnabled, .setWebLifecycleState, .setIdleOverride])

/-- How the focus-keeper loop ended: stop flag observed, inner `except`
branch taken (`break`), or the iteration bound `fuel` exhausted with the
loop still running. -/
inductive FocusExit where
  | stopped
  | errored
  | fuelOut
deriving DecidableEq, Repr

/-- `keep_tab_focused` (`cdp_helpers.py` lines 138-157), iteration `k`,
command counter `n`, issued-command trace `acc`, bounded by `fuel`
iterations.  Per iteration: check the stop flag; issue
`Target.activateTarget` then `Page.bringToFront` — if either raises, the
inner `except` logs and `break`s; then call `enforce_active_state`, whose
boolean result is DISCARDED (the Python call ignores the return value and
`enforce_active_state` catches its own exceptions), sleep, and loop.
`target_id`, `interval` and the log prefix only feed the commands' parameters
and the log text and are not tracked. -/
def keep_tab_focused (env : FocusEnv) : Nat → Nat → Nat → List Cmd → List Cmd × FocusExit
  | 0, _, _, acc => (acc, .fuelOut)
  | fuel + 1, k, n, acc =>
    if env.stop k then (acc, .stopped)
    else if env.ok n = false then (acc ++ [.activateTarget], .errored)
    else if env.ok (n + 1) = false then (acc ++ [.activateTarget, .bringToFront], .errored)
    else
      match enforce_active_state env (n + 2) with
      | (_, n2, cmds) =>
        keep_tab_focused env fuel (k + 1) n2 (acc ++ [.activateTarget, .bringToFront] ++ cmds)

/-- An environment in which only the third command ever issued — the first
`enforce_active_state` sub-command, `Emulation.setFocusEmulationEnabled` —
raises, and the stop flag is never set. -/
def c5Env : FocusEnv := ⟨fun n => decide (n ≠ 2), fun _ => false⟩

/-- C5 counterexample.  In `c5Env` the focus-keeper's third command (the
active-state sub-command `setFocusEmulationEnabled`, command number 2)
raises; the claim says this terminates the routine, but the exception is
caught inside `enforce_active_state` (which merely returns `False`, a value
`keep_tab_focused` discards), so the routine runs a full further iteration,
issuing five more commands, and does not exit through its error branch. -/
theorem enforce_failure_does_not_stop_focus_keeper :
    c5Env.ok 2 = false ∧
    keep_tab_focused c5Env 2 0 0 [] =
      ([.activateTarget, .bringToFront, .setFocusEmulationEnabled,
        .activateTarget, .bringToFront, .setFocusEmulationEnabled,
        .setWebLifecycleState, .setIdleOverride], .fuelOut) := by
  refine ⟨by decide, by decide⟩

/-- C5 (amended): within one iteration with the stop flag clear, a failure of
`Target.activateTarget` or `Page.bringToFront` is caught by the routine's own
`except`, which logs and terminates the routine — no further command is
issued and the loop exits through its error branch.  A failure of ANY of the
three active-state enforcement sub-commands —
`Emulation.setFocusEmulationEnabled` (command `n+2`),
`Page.setWebLifecycleState` (command `n+3`) or `Emulation.setIdleOverride`
(command `n+4`) — is instead caught inside `enforce_active_state`, which
stops issuing its remaining sub-commands and returns `False`;
`keep_tab_focused` ignores that value and continues with the next
iteration rather than terminating. -/
theorem keep_tab_focused_failure_handling (env : FocusEnv) (fuel k n : Nat)
    (acc : List Cmd) (hstop : env.stop k = false) :
    (env.ok n = false →
      keep_tab_focused env (fuel + 1) k n acc = (acc ++ [.activateTarget], .errored)) ∧
    (env.ok n = true → env.ok (n + 1) = false →
      keep_tab_focused env (fuel + 1) k n acc =
        (acc ++ [.activateTarget, .bringToFront], .errored)) ∧
    (env.ok n = true → env.ok (n + 1) = true → env.ok (n + 2) = false →
      enforce_active_state env (n + 2) = (false, n + 3, [.setFocusEmulationEnabled]) ∧
      keep_tab_focused env (fuel + 1) k n acc =
        keep_tab_focused env fuel (k + 1) (n + 3)
          (acc ++ [.activateTarget, .bringToFront, .setFocusEmulationEnabled])) ∧
    (env.ok n = true → env.ok (n + 1) = true → env.ok (n + 2) = true →
      env.ok (n + 3) = false →
      enforce_active_state env (n + 2) =
        (false, n + 4, [.setFocusEmulationEnabled, .setWebLifecycleState]) ∧
      keep_tab_focused env (fuel + 1) k n acc =
        keep_tab_focused env fuel (k + 1) (n + 4)
          (acc ++ [.activateTarget, .bringToFront, .setFocusEmulationEnabled,
            .setWebLifecycleState])) ∧
    (env.ok n = true → env.ok (n + 1) = true → env.ok (n + 2) = true →
      env.ok (n + 3) = true → env.ok (n + 4) = false →
      enforce_active_state env (n + 2) =
        (false, n + 5,
          [.setFocusEmulationEnabled, .setWebLifecycleState, .setIdleOverride]) ∧
      keep_tab_focused env (fuel + 1) k n acc =
        keep_tab_focused env fuel (k + 1) (n + 5)
          (acc ++ [.activateTarget, .bringToFront, .setFocusEmulationEnabled,
            .setWebLifecycleState, .setIdleOverride])) := by
  refine ⟨?_, ?_, ?_, ?_, ?_⟩
  · intro h0
    simp [keep_tab_focused, hstop, h0]
  · intro h0 h1
    simp [keep_tab_focused, hstop, h0, h1]
  · intro h0 h1 h2
    refine ⟨by simp [enforce_active_state, h2], ?_⟩
    simp [keep_tab_focused, hstop, h0, h1, enforce_active_state, h2]
  · intro h0 h1 h2 h3
    refine ⟨?_, ?_⟩
    · simp only [enforce_active_state, h2, h3]
      norm_num
    · simp only [keep_tab_focused, hstop, Bool.false_eq_true, if_false, h0, h1,
        enforce_active_state, h2, h3]
      norm_num
  · intro h0 h1 h2 h3 h4
    refine ⟨?_, ?_⟩
    · simp only [enforce_active_state, h2, h3, h4]
      norm_num
    · simp only [keep_tab_focused, hstop, Bool.false_eq_true, if_false, h0, h1,
        enforce_active_state, h2, h3, h4]
      norm_num

/-- An environment in which only command 3 — the second enforcement
sub-command `Page.setWebLifecycleState` of the first iteration — raises. -/
def c5EnvB : FocusEnv := ⟨fun n => decide (n ≠ 3), fun _ => false⟩

/-- An environment in which only command 4 — the third enforcement
sub-command `Emulation.setIdleOverride` of the first iteration — raises. -/
def c5EnvC : FocusEnv := ⟨fun n => decide (n ≠ 4), fun _ => false⟩

/-- Witness for `keep_tab_focused_failure_handling`: three concrete runs in
which respectively the first, the second and the third enforcement
sub-command raises on the first iteration; each time `enforce_active_state`
reports `False` after the failing sub-command and the routine proceeds to its
next iteration. -/
theorem keep_tab_focused_failure_handling_witness :
    (keep_tab_focused c5Env 1 0 0 [] =
      keep_tab_focused c5Env 0 1 3
        ([] ++ [.activateTarget, .bringToFront, .setFocusEmulationEnabled]) ∧
      (enforce_active_state c5Env 2).1 = false) ∧
    (keep_tab_focused c5EnvB 1 0 0 [] =
      keep_tab_focused c5EnvB 0 1 4
        ([] ++ [.activateTarget, .bringToFront, .setFocusEmulationEnabled,
          .setWebLifecycleState]) ∧
      (enforce_active_state c5EnvB 2).1 = false) ∧
    (keep_tab_focused c5EnvC 1 0 0 [] =
      keep_tab_focused c5EnvC 0 1 5
        ([] ++ [.activateTarget, .bringToFront, .setFocusEmulationEnabled,
          .setWebLifecycleState, .setIdleOverride]) ∧
      (enforce_active_state c5EnvC 2).1 = false) := by
  have h1 := (keep_tab_focused_failure_handling c5Env 0 0 0 [] rfl).2.2.1
    (by decide) (by decide) (by decide)
  have h2 := (keep_tab_focused_failure_handling c5EnvB 0 0 0 [] rfl).2.2.2.1
    (by decide) (by decide) (by decide) (by decide)
  have h3 := (keep_tab_focused_failure_handling c5EnvC 0 0 0 [] rfl).2.2.2.2
    (by decide) (by decide) (by decide) (by decide) (by decide)
  exact ⟨⟨h1.2, by rw [h1.1]⟩, ⟨h2.2, by rw [h2.1]⟩, ⟨h3.2, by rw [h3.1]⟩⟩

/-- Environment of one `idle_watchdog` execution: `now k` is the value of
`time.monotonic()` at the `k`-th check (each check follows one
`check_interval` sleep), `lastAct k` is what `last_response_time_fn()`
returns there, `extStop k` is `stop_event.is_set()` at the top of iteration
`k` (external setters), and `closeRaises` tells whether `close_coro()` raises
when invoked. -/
structure WatchdogEnv where
  now : Nat → ℤ
  lastAct : Nat → ℤ
  extStop : Nat → Bool
  closeRaises : Bool

/-- The best-effort `await close_coro()` under `with suppress(Exception)`:
its success or failure is produced and then discarded by the caller. -/
def attemptClose (raises : Bool) : Except Unit Unit :=
  if raises then Except.error () else Except.ok ()

/-- Observable outcome of one `idle_watchdog` execution: at which check (if
any) the timeout branch fired, whether the `on_timeout` callback was invoked,
whether `stop_event.set()` was called, and whether `close_coro()` was
invoked. -/
structure WatchOutcome where
  fired : Option Nat
  callbackCalled : Bool
  stopSet : Bool
  closeAttempted : Bool
deriving DecidableEq, Repr

/-- `idle_watchdog` (`cdp_helpers.py` lines 160-185) from check `k`, bounded
by `fuel` iterations.  Each iteration: exit if the stop flag is set; sleep;
compute `elapsed = time.monotonic() - last_response_time_fn()`; if
`elapsed >= idle_timeout`, invoke `on_timeout` when supplied (`hasCallback`),
print, set the stop flag, attempt the close with its result suppressed, and
`break`.  `check_interval`, `description` and the reason string only shape
the sleep pacing and the log text and are not tracked; the clock reading at
check `k` is `env.now k`. -/
def idle_watchdog (env : WatchdogEnv) (idle_timeout : ℤ) (hasCallback : Bool) :
    Nat → Nat → WatchOutcome
  | 0, _ => ⟨none, false, false, false⟩
  | fuel + 1, k =>
    if env.extStop k then ⟨none, false, false, false⟩
    else if idle_timeout ≤ env.now k - env.lastAct k then
      let closeResult := attemptClose env.closeRaises
      let _ := closeResult
      ⟨some k, hasCallback, true, true⟩
    else idle_watchdog env idle_timeout hasCallback fuel (k + 1)

/-- If the watchdog fires at check `j`, then `j` is in the run's range, the
idle condition holds at `j` and at no earlier check, and the loop was not
stopped externally before `j`. -/
theorem idle_watchdog_fired_char (env : WatchdogEnv) (T : ℤ) (cb : Bool) :
    ∀ (fuel k j : Nat), (idle_watchdog env T cb fuel k).fired = some j →
      k ≤ j ∧ T ≤ env.now j - env.lastAct j ∧
      (∀ i, k ≤ i → i < j → env.now i - env.lastAct i < T ∧ env.extStop i = false) ∧
      env.extStop j = false := by
  intro fuel
  induction fuel with
  | zero =>
    intro k j h
    simp [idle_watchdog] at h
  | succ n ih =>
    intro k j h
    by_cases hs : env.extStop k
    · simp [idle_watchdog, hs] at h
    · by_cases hT : T ≤ env.now k - env.lastAct k
      · have hj : k = j := by
          simpa [idle_watchdog, hs, hT] using h
        subst hj
        exact ⟨Nat.le_refl k, hT, fun i h1 h2 => absurd (Nat.lt_of_le_of_lt h1 h2)
          (Nat.lt_irrefl k), by simpa using hs⟩
      · have h2 : (idle_watchdog env T cb n (k + 1)).fired = some j := by
          simpa [idle_watchdog, hs, hT] using h
        obtain ⟨hkj, hTj, hmid, hsj⟩ := ih (k + 1) j h2
        refine ⟨by omega, hTj, ?_, hsj⟩
        intro i hi1 hi2
        rcases Nat.eq_or_lt_of_le hi1 with heq | hlt
        · subst heq
          exact ⟨lt_of_not_le hT, by simpa using hs⟩
        · exact hmid i hlt hi2

/-- Once fired, the loop has terminated: giving the loop more fuel changes
nothing about the execution. -/
theorem idle_watchdog_fired_stable (env : WatchdogEnv) (T : ℤ) (cb : Bool) :
    ∀ (fuel k : Nat), (idle_watchdog env T cb fuel k).fired.isSome →
      ∀ extra, idle_watchdog env T cb (fuel + extra) k = idle_watchdog env T cb fuel k := by
  intro fuel
  induction fuel with
  | zero =>
    intro k h extra
    simp [idle_watchdog] at h
  | succ n ih =>
    intro k h extra
    by_cases hs : env.extStop k
    · simp [idle_watchdog, hs] at h
    · by_cases hT : T ≤ env.now k - env.lastAct k
      · have harr : n + 1 + extra = (n + extra) + 1 := by omega
        rw [harr]
        simp [idle_watchdog, hs, hT]
      · have h2 : (idle_watchdog env T cb n (k + 1)).fired.isSome := by
          simpa [idle_watchdog, hs, hT] using h
        have harr : n + 1 + extra = (n + extra) + 1 := by omega
        rw [harr]
        simp only [idle_watchdog, hs, Bool.false_eq_true, if_false, hT, if_neg, if_false]
        rw [ih (k + 1) h2 extra]

/-- The suppressed close leaves the watchdog's behaviour unchanged: the
outcome is the same whether or not `close_coro()` raises. -/
theorem idle_watchdog_close_suppressed (nw la : Nat → ℤ) (es : Nat → Bool)
    (T : ℤ) (cb : Bool) :
    ∀ (fuel k : Nat) (b1 b2 : Bool),
      idle_watchdog ⟨nw, la, es, b1⟩ T cb fuel k =
        idle_watchdog ⟨nw, la, es, b2⟩ T cb fuel k := by
  intro fuel
  induction fuel with
  | zero => intro k b1 b2; rfl
  | succ n ih =>
    intro k b1 b2
    by_cases hs : es k
    · simp [idle_watchdog, hs]
    · by_cases hT : T ≤ nw k - la k
      · simp [idle_watchdog, hs, hT]
      · simp only [idle_watchdog, hs, Bool.false_eq_true, if_false, hT, if_neg, if_false]
        exact ih (k + 1) b1 b2

/-- When the watchdog fires it has invoked the callback exactly when one was
supplied, set the stop flag, attempted the close, and broken out. -/
theorem idle_watchdog_fired_outcome (env : WatchdogEnv) (T : ℤ) (cb : Bool) :
    ∀ (fuel k j : Nat), (idle_watchdog env T cb fuel k).fired = some j →
      idle_watchdog env T cb fuel k = ⟨some j, cb, true, true⟩ := by
  intro fuel
  induction fuel with
  | zero =>
    intro k j h
    simp [idle_watchdog] at h
  | succ n ih =>
    intro k j h
    by_cases hs : env.extStop k
    · simp [idle_watchdog, hs] at h
    · by_cases hT : T ≤ env.now k - env.lastAct k
      · have hj : k = j := by simpa [idle_watchdog, hs, hT] using h
        subst hj
        simp [idle_watchdog, hs, hT]
      · have h2 : (idle_watchdog env T cb n (k + 1)).fired = some j := by
          simpa [idle_watchdog, hs, hT] using h
        simpa [idle_watchdog, hs, hT] using ih (k + 1) j h2

/-- C6: if the idle watchdog fires at check `j`, then the idle condition
`now - last_activity ≥ idle_timeout` holds at `j` and at no earlier check
(it never fires early); upon firing it has invoked the notification callback
exactly when one was supplied, set the shared stop flag, and attempted the
close; it fires at most once — the loop has terminated, so additional fuel
changes nothing — and its behaviour is identical whether or not the
suppressed close raises. -/
theorem idle_watchdog_fires_once_at_timeout (env : WatchdogEnv) (T : ℤ) (cb : Bool)
    (fuel j : Nat) (h : (idle_watchdog env T cb fuel 0).fired = some j) :
    T ≤ env.now j - env.lastAct j ∧
    (∀ i, i < j → env.now i - env.lastAct i < T) ∧
    idle_watchdog env T cb fuel 0 = ⟨some j, cb, true, true⟩ ∧
    (∀ extra, idle_watchdog env T cb (fuel + extra) 0 = idle_watchdog env T cb fuel 0) ∧
    (∀ b, idle_watchdog ⟨env.now, env.lastAct, env.extStop, b⟩ T cb fuel 0 =
      idle_watchdog env T cb fuel 0) := by
  obtain ⟨-, hTj, hmid, -⟩ := idle_watchdog_fired_char env T cb fuel 0 j h
  refine ⟨hTj, ?_, ?_, ?_, ?_⟩
  · intro i hi
    exact (hmid i (Nat.zero_le i) hi).1
  · exact idle_watchdog_fired_outcome env T cb fuel 0 j h
  · exact idle_watchdog_fired_stable env T cb fuel 0 (by simp [h])
  · intro b
    have := idle_watchdog_close_suppressed env.now env.lastAct env.extStop T cb fuel 0
      b env.closeRaises
    exact this

/-- A watchdog environment: the clock reads 0, 1 then 5 at the successive
checks, activity stays at time 0, the stop flag is never set externally, and
the close raises (and is suppressed). -/
def wEnv : WatchdogEnv :=
  ⟨fun k => match k with | 0 => 0 | 1 => 1 | _ => 5, fun _ => 0, fun _ => false, true⟩

/-- Witness for `idle_watchdog_fires_once_at_timeout`: with idle timeout 2,
`wEnv`'s watchdog fires at check 2 (elapsed 5 ≥ 2), not at checks 0 or 1,
having called the callback, set the stop flag and attempted the (raising)
close. -/
theorem idle_watchdog_fires_once_at_timeout_witness :
    (2 : ℤ) ≤ wEnv.now 2 - wEnv.lastAct 2 ∧
    wEnv.now 1 - wEnv.lastAct 1 < 2 ∧
    idle_watchdog wEnv 2 true 5 0 = ⟨some 2, true, true, true⟩ := by
  have h := idle_watchdog_fires_once_at_timeout wEnv 2 true 5 2 (by decide)
  exact ⟨h.1, h.2.1 1 (by decide), h.2.2.1⟩

/-- The delay sampler `next_scroll_delay` (`cdp_helpers.py` lines 90-96).
The stream `samples` stands for the successive draws of
`random.gauss(mean_ms, stddev_ms)` (the mean and standard deviation only
parameterize the distribution of the stream and are not otherwise read);
draw `i` is the next one to consume, and `fuel` bounds the number of draws
(`none` models the loop still resampling).  A draw inside
`[min_ms, max_ms]` is accepted and the function returns `sample / 1000`,
converting milliseconds to the seconds that `asyncio.sleep` expects;
anything else is rejected and redrawn. -/
def next_scroll_delay (samples : Nat → ℚ) (min_ms max_ms : ℚ) : Nat → Nat → Option ℚ
  | _, 0 => none
  | i, fuel + 1 =>
    let sample := samples i
    if min_ms ≤ sample ∧ sample ≤ max_ms then some (sample / 1000)
    else next_scroll_delay samples min_ms max_ms (i + 1) fuel

/-- C7 counterexample.  With the default bounds `min_ms = 200`,
`max_ms = 5000` and a Gaussian draw of 500 (inside the bounds), the sampler
returns `500 / 1000 = 1/2` — the millisecond sample converted to seconds —
which is NOT within `[min_ms, max_ms]` as the claim states. -/
theorem next_scroll_delay_returns_seconds :
    next_scroll_delay (fun _ => 500) 200 5000 0 1 = some (1 / 2) ∧
    ¬((200 : ℚ) ≤ 1 / 2) := by
  constructor
  · simp only [next_scroll_delay]
    norm_num
  · norm_num

/-- C7 (amended): whenever the sampler returns, the value it returns is an
accepted Gaussian draw within `[min_ms, max_ms]` divided by 1000 (the
milliseconds-to-seconds conversion); draws outside the bounds are rejected
and redrawn, for every configuration of mean, stddev and bounds. -/
theorem next_scroll_delay_bounds (samples : Nat → ℚ) (min_ms max_ms : ℚ) :
    ∀ (fuel i : Nat) (v : ℚ), next_scroll_delay samples min_ms max_ms i fuel = some v →
      ∃ s, min_ms ≤ s ∧ s ≤ max_ms ∧ v = s / 1000 := by
  intro fuel
  induction fuel with
  | zero =>
    intro i v h
    simp [next_scroll_delay] at h
  | succ n ih =>
    intro i v h
    by_cases hin : min_ms ≤ samples i ∧ samples i ≤ max_ms
    · have hv : v = samples i / 1000 := by
        simp only [next_scroll_delay, hin, if_pos] at h
        exact (Option.some.injEq .. ▸ h).symm
      exact ⟨samples i, hin.1, hin.2, hv⟩
    · have h2 : next_scroll_delay samples min_ms max_ms (i + 1) n = some v := by
        simpa [next_scroll_delay, hin] using h
      exact ih (i + 1) v h2

/-- A Gaussian stream whose first draw (9999) exceeds `max_ms` and whose
second draw (300) lies within the default bounds. -/
def gaussStream : Nat → ℚ := fun i => if i = 0 then 9999 else 300

/-- Witness for `next_scroll_delay_bounds`: with bounds [200, 5000] the
out-of-bounds first draw is rejected and the returned value `300 / 1000`
comes from an accepted in-bounds draw. -/
theorem next_scroll_delay_bounds_witness :
    next_scroll_delay gaussStream 200 5000 0 2 = some (3 / 10) ∧
    ∃ s, (200 : ℚ) ≤ s ∧ s ≤ 5000 ∧ (3 : ℚ) / 10 = s / 1000 := by
  constructor
  · simp only [next_scroll_delay, gaussStream]
    norm_num
  · exact next_scroll_delay_bounds gaussStream 200 5000 2 0 (3 / 10)
      (by simp only [next_scroll_delay, gaussStream]; norm_num)

/-- What happens when `download_images` processes one entry that has an
`imgurl`: the HTTP GET raises / returns a bad status (`fail`), or succeeds
and the body is written to a file named `fname` (`fetched`). -/
inductive DLOutcome where
  | fail (msg : String)
  | fetched (fname : String)

/-- The per-entry body of `download_images` (`cli.py` lines 80-117), writing
into THE SAME entry dict the extractor appended: no `imgurl` (missing, null
or empty) sets `downloaded = False`; a failed fetch sets `downloaded = False`
and `download_error`; a successful fetch writes the file and sets
`downloaded = True` and `filename`.  The per-host delay bookkeeping is pure
timing and is not tracked. -/
def downloadEntry (e : Record) (o : DLOutcome) : Record :=
  match e.payload.imgurl with
  | none => { e with downloaded := some false }
  | some _ =>
    match o with
    | .fail msg => { e with downloaded := some false, download_error := some msg }
    | .fetched fname => { e with downloaded := some true, filename := some fname }

/-- The `for entry in results:` loop of `download_images`, the network
abstracted by the per-position oracle `dl`.  At the end the (mutated) list is
flushed by `write_results_json`. -/
def download_images (dl : Nat → DLOutcome) : Nat → List Record → List Record
  | _, [] => []
  | i, e :: rest => downloadEntry e (dl i) :: download_images dl (i + 1) rest

/-- What happens when `annotate_images` processes one downloaded entry with a
filename: the saved file is gone (`fileMissing`), the OpenRouter request
raises (`requestFail`), or it succeeds with alt text `alt` (`annotated`). -/
inductive AnnOutcome where
  | fileMissing
  | requestFail (msg : String)
  | annotated (alt : String)

/-- The per-entry body of `annotate_images` (`cli.py` lines 141-166), again
mutating the same entry dict: entries not successfully downloaded are
skipped; a missing `filename` key, a missing file or a failed request set
`llm_alt_error`; success sets `llm_alt` and pops `llm_alt_error`. -/
def annotateEntry (e : Record) (o : AnnOutcome) : Record :=
  if e.downloaded = some true then
    match e.filename with
    | none => { e with llm_alt_error := some "Missing filename" }
    | some _ =>
      match o with
      | .fileMissing => { e with llm_alt_error := some "File not found" }
      | .requestFail msg => { e with llm_alt_error := some msg }
      | .annotated alt => { e with llm_alt := some alt, llm_alt_error := none }
  else e

/-- The `for entry in results:` loop of `annotate_images`, the OpenRouter
call abstracted by the per-position oracle `ann`. -/
def annotate_images (ann : Nat → AnnOutcome) : Nat → List Record → List Record
  | _, [] => []
  | i, e :: rest => annotateEntry e (ann i) :: annotate_images ann (i + 1) rest

/-- An extractor record whose payload reports `ok` but carries no `imgres`
link (so `success = False` and there is nothing to download). -/
def noLinkPayload : Payload := ⟨some "ok", false, none, false, none, 5⟩

/-- C9 counterexample.  `download_images` mutates the very record dict the
extractor appended: for a record without an `imgurl` it assigns
`entry["downloaded"] = False`, so the record after the download step differs
from the record as created — extraction records are not immutable after
creation. -/
theorem download_mutates_record :
    download_images (fun _ => .fail "boom") 0 [mkRecord 3 noLinkPayload] =
      [{ mkRecord 3 noLinkPayload with downloaded := some false }] ∧
    (mkRecord 3 noLinkPayload).downloaded = none ∧
    download_images (fun _ => .fail "boom") 0 [mkRecord 3 noLinkPayload] ≠
      [mkRecord 3 noLinkPayload] := by
  refine ⟨by decide, by decide, by decide⟩

/-- The fields of a record that the extractor sets at creation time:
`index`, `success` and the scraped payload (`data`, `childCount`,
`parentTag`, `docId`, `raw`). -/
def Record.scrapeCore (e : Record) : Nat × Bool × Payload :=
  (e.index, e.success, e.payload)

/-- One download step preserves every creation-time field. -/
theorem downloadEntry_core (e : Record) (o : DLOutcome) :
    (downloadEntry e o).scrapeCore = e.scrapeCore := by
  unfold downloadEntry Record.scrapeCore
  cases e.payload.imgurl <;> cases o <;> rfl

/-- One annotation step preserves every creation-time field. -/
theorem annotateEntry_core (e : Record) (o : AnnOutcome) :
    (annotateEntry e o).scrapeCore = e.scrapeCore := by
  unfold annotateEntry Record.scrapeCore
  by_cases h : e.downloaded = some true
  · simp only [h, if_pos]
    cases e.filename <;> cases o <;> rfl
  · simp [h]

/-- C9 (amended): each record is created exactly once for its requested
index — the appended records' indices are pairwise distinct — and the
downstream download and annotation steps, though they mutate the records in
place by writing the download/annotation keys (`downloaded`,
`download_error`, `filename`, `llm_alt`, `llm_alt_error`), never change any
creation-time field: `index`, `success` and the scraped payload survive both
steps unchanged, entry by entry. -/
theorem downstream_preserves_scrape_fields (dl : Nat → DLOutcome) (ann : Nat → AnnOutcome)
    (count : Nat) (oracle : Nat → IndexTrace) :
    (∀ (entries : List Record) (i : Nat),
      (download_images dl i entries).map Record.scrapeCore = entries.map Record.scrapeCore) ∧
    (∀ (entries : List Record) (i : Nat),
      (annotate_images ann i entries).map Record.scrapeCore = entries.map Record.scrapeCore) ∧
    ((navigate_and_count count oracle).records.map fun r => r.index).Nodup := by
  refine ⟨?_, ?_, ?_⟩
  · intro entries
    induction entries with
    | nil => intro i; rfl
    | cons e rest ih =>
      intro i
      simp only [download_images, List.map_cons, downloadEntry_core, ih (i + 1)]
  · intro entries
    induction entries with
    | nil => intro i; rfl
    | cons e rest ih =>
      intro i
      simp only [annotate_images, List.map_cons, annotateEntry_core, ih (i + 1)]
  · obtain ⟨recs2, h1, h2⟩ := runFrom_records oracle count 0 []
    unfold navigate_and_count
    rw [h1]
    simp only [List.nil_append]
    rw [h2, ← List.range_eq_range']
    exact List.nodup_range recs2.length

/-- The response answering the first request (id 1) in the C10 scenario. -/
def c10RespA : CDPMessage := ⟨some 1, none, 101⟩

/-- The response answering the second request (id 2) in the C10 scenario. -/
def c10RespB : CDPMessage := ⟨some 2, none, 102⟩

/-- Initial state for the C10 scenario: fresh client, two callers about to
invoke `send`, and the channel delivering an event followed by the two
responses in request order. -/
def c10Init : ConcState :=
  ⟨0, [⟨none, some "Network.requestWillBeSent", 7⟩, c10RespA, c10RespB],
    .ready "DOM.enable", .ready "CSS.enable"⟩

/-- C10 counterexample.  A message whose `id` differs from the id the current
invocation allocated is NOT always discarded: with two concurrent callers,
the loop's check is against the live shared `self._msg_id`.  Schedule: caller
a sends (allocates id 1), caller b sends (allocates id 2), a skips the event,
a discards the id-1 response (1 ≠ current counter 2), and a then RETURNS the
id-2 response — a message whose id (2) differs from the id a's invocation
allocated (1) is returned to caller a. -/
theorem mismatched_id_returned_to_caller :
    execSched c10Init [true, false, true, true, true] =
      ⟨2, [], .done 1 c10RespB, .waiting 2⟩ ∧
    c10RespB.id = some 2 ∧ (2 : Nat) ≠ 1 := by
  refine ⟨rfl, rfl, by decide⟩
